import Mathlib

/-!
# Satchel: image-set resolution and archival pipeline

A shallow embedding of `satchel.go`, the single source file of the
`satchel` tool, together with proofs about the properties of its
manifest loader, pull/tag stages, image-set resolver (`findImageIds`),
archiver (`saveImages`) and load-script generator (`generateScript`).

External collaborators (the Docker daemon, the TOML library, the
filesystem) are modelled as explicit parameters: each fallible external
call is represented by its possible outcome, and the embedding mirrors
exactly how the Go code reacts to that outcome (including the places
where the Go code discards an error).  `log.Fatalf` terminates the
process via `os.Exit`, which does not run deferred calls; an exit of
this kind is modelled as `StageExit.fatal`.
-/

namespace Satchel

/-- `type Image struct` of satchel.go: one manifest entry. -/
structure Image where
  registry : String
  repository : String
  tag : String
  public : Bool
deriving Repr, DecidableEq

/-- `types.ImageSummary` as used by satchel.go: a daemon-reported record
with an opaque ID, a parent ID (empty means root image) and repo tags. -/
structure ImageSummary where
  id : String
  parentID : String
  repoTags : List String
deriving Repr, DecidableEq

/-- `type Descriptor struct`: the loaded manifest. -/
structure Descriptor where
  images : List Image
deriving Repr, DecidableEq

/-- `func (i Image) ImageName()`: fully-qualified name
`registry/repository:tag`, with the registry segment (and its slash)
omitted when the registry is empty. -/
def Image.imageName (i : Image) : String :=
  if i.registry = "" then i.repository ++ ":" ++ i.tag
  else i.registry ++ "/" ++ i.repository ++ ":" ++ i.tag

/-- `func (i Image) ImageNameNoRegistry()`: the local name
`repository:tag`. -/
def Image.imageNameNoRegistry (i : Image) : String :=
  i.repository ++ ":" ++ i.tag

/-- The public/private filter used (independently) by the pull, tag and
save stages: an image is kept unless `image.Public && !includePublic`.
In satchel.go this appears as `if image.Public && !includePublic {
continue }`. -/
def keepImage (pub : Bool) (i : Image) : Bool :=
  !(i.public && !pub)

/-- `func containsTag(tag string, tags []string) bool`: linear scan for
an exact string match. -/
def containsTag (tag : String) : List String → Bool
  | [] => false
  | searchTag :: rest => if searchTag = tag then true else containsTag tag rest

/-- The inner loop of `findImageIds` for one summary: scan the manifest
images; skip images rejected by the public filter (`continue`); on the
first image whose local name is among the summary repo tags, stop
(`break` in the Go code, i.e. the summary contributes at most once). -/
def imageMatch (pub : Bool) (s : ImageSummary) : List Image → Bool
  | [] => false
  | img :: rest =>
    if img.public && !pub then imageMatch pub s rest
    else if containsTag img.imageNameNoRegistry s.repoTags then true
    else imageMatch pub s rest

/-- `func findImageIds(images []Image, imageSummaries []types.ImageSummary)`:
for each daemon summary (outer loop, in daemon order), if it is a root
image (`ParentID == ""`) and the inner loop finds a surviving manifest
image whose local name is among the repo tags, record the summary ID. -/
def findImageIds (pub : Bool) (images : List Image) : List ImageSummary → List String
  | [] => []
  | s :: rest =>
    if s.parentID = "" then
      if imageMatch pub s images then s.id :: findImageIds pub images rest
      else findImageIds pub images rest
    else findImageIds pub images rest

/-- Exit mode of a pipeline stage: `fatal` models `log.Fatal`/`log.Fatalf`
(process exit, deferred calls do not run), `returned` models a normal
return to the caller. -/
inductive StageExit where
  | fatal
  | returned
deriving Repr, DecidableEq

/-- One `cli.ImagePull` invocation: the manifest image it was made for
and the name string passed to the daemon. -/
structure PullCall where
  image : Image
  name : String
deriving Repr, DecidableEq

/-- `func pullImages(images []Image)`: for each image passing the public
filter, call `cli.ImagePull` on the fully-qualified name; any pull error
is fatal immediately (`log.Fatal(err)`), ending the loop.  The pull
outcome of each image is supplied by the oracle `pullErr` (`none` =
success).  Returns the list of pull calls made and the exit mode. -/
def pullImages (pub : Bool) (pullErr : Image → Option String) :
    List Image → List PullCall × StageExit
  | [] => ([], StageExit.returned)
  | img :: rest =>
    if img.public && !pub then pullImages pub pullErr rest
    else
      match pullErr img with
      | some _ => ([⟨img, img.imageName⟩], StageExit.fatal)
      | none =>
        let r := pullImages pub pullErr rest
        (⟨img, img.imageName⟩ :: r.1, r.2)

/-- One `cli.ImageTag` invocation: the manifest image it was made for,
the source name and the destination name passed to the daemon. -/
structure TagCall where
  image : Image
  src : String
  dest : String
deriving Repr, DecidableEq

/-- `func tagImages(images []Image)`: for each image passing the public
filter, call `cli.ImageTag(ctx, src, dest)` with `src` the
fully-qualified name and `dest` the local name.  The error value
returned by `cli.ImageTag` is not assigned or checked in the Go code,
so the oracle `tagErr` is consulted and its answer discarded; the loop
always runs to completion and the stage always returns normally. -/
def tagImages (pub : Bool) (tagErr : Image → Option String) :
    List Image → List TagCall × StageExit
  | [] => ([], StageExit.returned)
  | img :: rest =>
    if img.public && !pub then tagImages pub tagErr rest
    else
      let _discarded := tagErr img
      let r := tagImages pub tagErr rest
      (⟨img, img.imageName, img.imageNameNoRegistry⟩ :: r.1, r.2)

/-- Outcome of the external TOML library on the manifest file:
`syntaxError` models `toml.LoadFile` returning an error; `parsed` models
a successful load, carrying the result of `tree.Unmarshal` into the
descriptor: an optional unmarshal error plus the (possibly empty or
partially filled) descriptor value left behind in either case. -/
inductive TomlResult where
  | syntaxError (msg : String)
  | parsed (unmarshalErr : Option String) (raw : Descriptor)
deriving Repr, DecidableEq

/-- The tag-defaulting loop of `loadDescriptor`: every image whose tag
is the empty string gets tag `"latest"`; only the tag field is written. -/
def applyTagDefaults (d : Descriptor) : Descriptor :=
  ⟨d.images.map fun img =>
    if img.tag = "" then Image.mk img.registry img.repository "latest" img.public
    else img⟩

/-- `func loadDescriptor() *Descriptor`: a `toml.LoadFile` error is fatal
(`log.Fatalf`); the error returned by `tree.Unmarshal(descriptor)` is
discarded (the Go code does not bind or test it), after which the tag
defaults are applied and the descriptor is returned. -/
def loadDescriptor (r : TomlResult) : Except String Descriptor :=
  match r with
  | TomlResult.syntaxError e => Except.error ("Error Loading File: " ++ e)
  | TomlResult.parsed _unmarshalErr raw => Except.ok (applyTagDefaults raw)

/-- `func validate()`: `os.Stat` on the input file; absence is fatal. -/
def validateStat (fileFound : Bool) : Except String Unit :=
  if fileFound then Except.ok () else Except.error "Input file not found"

/-- The manifest-loading phase of `main`: `validate()` followed by
`loadDescriptor()`. -/
def loadStage (fileFound : Bool) (r : TomlResult) : Except String Descriptor :=
  match validateStat fileFound with
  | Except.error e => Except.error e
  | Except.ok _ => loadDescriptor r

/-- Outcomes of the external calls made by `saveImages`, in the order
the Go code makes them: `cli.ImageList` (`none` = error), then
`cli.ImageSave` (opens the export stream reader), then `os.Create`
(opens the output file), then `gzip.NewWriterLevel`, then `io.Copy`
(whose error, if any, is `copyErr`). -/
structure SaveEnv where
  listResult : Option (List ImageSummary)
  saveOk : Bool
  createOk : Bool
  gzipOk : Bool
  copyErr : Option String
deriving Repr, DecidableEq

/-- What `saveImages` did with its two scoped resources by the time the
stage ends, plus the resolved ID list it computed. -/
structure SaveOutcome where
  exit : StageExit
  imageIds : List String
  readerOpened : Bool
  readerClosed : Bool
  fileOpened : Bool
  fileClosed : Bool
  gzipClosed : Bool
deriving Repr, DecidableEq

/-- `func saveImages(images []Image)`.  Faithful points of the Go code:

* every pre-copy error is `log.Fatalf`, i.e. `os.Exit`, and the two
  `defer` statements are only registered *after* `gzip.NewWriterLevel`
  succeeds, so on the `os.Create` / `gzip.NewWriterLevel` failure paths
  the already-open export reader (and file) are not closed;
* on the success path the deferred `gzipWriter.Close()` and
  `readerCloser.Close()` run when the function returns, but
  `gzip.Writer.Close` does not close the underlying `io.Writer`, and
  `outFile.Close()` is never called anywhere, so the output file handle
  is never closed;
* the value of `io.Copy` is assigned to `err` on the last line and never
  examined, so `copyErr` has no effect on the outcome. -/
def saveImages (pub : Bool) (images : List Image) (env : SaveEnv) : SaveOutcome :=
  match env.listResult with
  | none => ⟨StageExit.fatal, [], false, false, false, false, false⟩
  | some summaries =>
    let ids := findImageIds pub images summaries
    if env.saveOk = false then ⟨StageExit.fatal, ids, false, false, false, false, false⟩
    else if env.createOk = false then ⟨StageExit.fatal, ids, true, false, false, false, false⟩
    else if env.gzipOk = false then ⟨StageExit.fatal, ids, true, false, true, false, false⟩
    else
      let _copyError := env.copyErr
      ⟨StageExit.returned, ids, true, true, true, false, true⟩

/-- The `echo "Tagging ..."` line emitted per image by the first range
block of `loadScriptTemplate`. -/
def echoTagLine (i : Image) : String :=
  "echo \"Tagging " ++ i.repository ++ ":" ++ i.tag ++ " -> ${repository}/"
    ++ i.repository ++ ":" ++ i.tag ++ "\""

/-- The `docker tag` line emitted per image by the first range block of
`loadScriptTemplate`: the source name is spelled inline in the template
as `{{ .Repository }}:{{ .Tag }}`. -/
def dockerTagLine (i : Image) : String :=
  "docker tag " ++ i.repository ++ ":" ++ i.tag ++ " ${repository}/"
    ++ i.repository ++ ":" ++ i.tag

/-- The `echo "Pushing ..."` line emitted per image by the second range
block of `loadScriptTemplate`. -/
def echoPushLine (i : Image) : String :=
  "echo \"Pushing ${repository}/" ++ i.repository ++ ":" ++ i.tag ++ "\""

/-- The `docker push` line emitted per image by the second range block
of `loadScriptTemplate`. -/
def dockerPushLine (i : Image) : String :=
  "docker push ${repository}/" ++ i.repository ++ ":" ++ i.tag

/-- The fixed leading lines of `loadScriptTemplate`, with the archive
file name interpolated for `{{ .OutputFile }}`. -/
def scriptHeader (outFile : String) : List String :=
  ["#!/bin/bash",
   "",
   "repository=${1}",
   "",
   "imageFile=" ++ outFile,
   "",
   "if [ \"$repository\" == \"\" ]; then",
   "    echo \"Repository not specified\"",
   "    exit 1",
   "fi",
   "",
   "echo Loading Images from ${imageFile}",
   "docker load < ${imageFile}",
   ""]

/-- The rendered load script of `generateScript`, line by line: header,
then the first range block (one echo + one `docker tag` line per image
of `.Descriptor.Images`, in manifest order), then the second range block
(one echo + one `docker push` line per image).  `generateScript` passes
the full descriptor; no public filter is applied anywhere here. -/
def renderScript (outFile : String) (d : Descriptor) : List String :=
  scriptHeader outFile
    ++ (d.images.flatMap fun i => [echoTagLine i, dockerTagLine i])
    ++ (d.images.flatMap fun i => [echoPushLine i, dockerPushLine i])

/-- The behaviour claimed for a public image when the `-public` flag is
off and when it is on: with the flag off, no pull call and no tag call
is made for the image and its presence in the manifest never changes the
resolved ID set; with the flag on, the pull stage (on an error-free run)
and the tag stage (under any tag-error oracle) both issue their call for
the image, and any root summary carrying the image local name
contributes its ID to the resolver output. -/
def C2Prop (img : Image) : Prop :=
  (∀ (pullErr : Image → Option String) (images : List Image) (c : PullCall),
      c ∈ (pullImages false pullErr images).1 → c.image ≠ img) ∧
  (∀ (tagErr : Image → Option String) (images : List Image) (c : TagCall),
      c ∈ (tagImages false tagErr images).1 → c.image ≠ img) ∧
  (∀ (l₁ l₂ : List Image) (summaries : List ImageSummary),
      findImageIds false (l₁ ++ img :: l₂) summaries
        = findImageIds false (l₁ ++ l₂) summaries) ∧
  (∀ images : List Image, img ∈ images →
      (⟨img, img.imageName⟩ : PullCall) ∈ (pullImages true (fun _ => none) images).1) ∧
  (∀ (tagErr : Image → Option String) (images : List Image), img ∈ images →
      (⟨img, img.imageName, img.imageNameNoRegistry⟩ : TagCall)
        ∈ (tagImages true tagErr images).1) ∧
  (∀ (images : List Image) (summaries : List ImageSummary) (s : ImageSummary),
      img ∈ images → s ∈ summaries → s.parentID = "" →
      img.imageNameNoRegistry ∈ s.repoTags →
      s.id ∈ findImageIds true images summaries)

/-- `l` starts with the string `p`. -/
def strStarts (p l : String) : Bool :=
  p.data.isPrefixOf l.data

/-- A script line that is one of the two daemon-mutating commands the
claims are about: a `docker tag` or a `docker push` command. -/
def isCmdLine (l : String) : Bool :=
  strStarts "docker tag " l || strStarts "docker push " l

/-! ## Helper lemmas -/

lemma containsTag_iff (t : String) (ts : List String) :
    containsTag t ts = true ↔ t ∈ ts := by
  induction ts with
  | nil => simp [containsTag]
  | cons a rest ih =>
    by_cases h : a = t
    · simp [containsTag, h]
    · simp [containsTag, h, ih, Ne.symm h]

lemma keepImage_true_iff (pub : Bool) (i : Image) :
    keepImage pub i = true ↔ ¬(i.public = true ∧ pub = false) := by
  cases hp : i.public <;> cases pub <;> simp [keepImage, hp]

lemma keepImage_of_skip (pub : Bool) (i : Image) (h : (i.public && !pub) = true) :
    keepImage pub i = false := by
  simp [keepImage, h]

lemma skip_of_not_keepImage (pub : Bool) (i : Image) (h : keepImage pub i = false) :
    (i.public && !pub) = true := by
  simpa [keepImage] using h

lemma keepImage_true_of_pub (i : Image) : keepImage true i = true := by
  simp [keepImage]

lemma imageMatch_iff (pub : Bool) (s : ImageSummary) (images : List Image) :
    imageMatch pub s images = true ↔
      ∃ img ∈ images, keepImage pub img = true ∧
        img.imageNameNoRegistry ∈ s.repoTags := by
  induction images with
  | nil => simp [imageMatch]
  | cons img rest ih =>
    by_cases hskip : (img.public && !pub) = true
    · have hk := keepImage_of_skip pub img hskip
      simp only [imageMatch, hskip, if_true, ih]
      constructor
      · rintro ⟨i, hi, hki, hmem⟩
        exact ⟨i, List.mem_cons_of_mem _ hi, hki, hmem⟩
      · rintro ⟨i, hi, hki, hmem⟩
        rcases List.mem_cons.1 hi with rfl | hi
        · rw [hk] at hki; exact absurd hki (by simp)
        · exact ⟨i, hi, hki, hmem⟩
    · have hskip2 : (img.public && !pub) = false := by
        cases h : (img.public && !pub) with
        | false => rfl
        | true => exact absurd h hskip
      have hk : keepImage pub img = true := by simp [keepImage, hskip2]
      by_cases hc : containsTag img.imageNameNoRegistry s.repoTags = true
      · simp only [imageMatch, hskip2, Bool.false_eq_true, if_false, hc, if_true, true_iff]
        exact ⟨img, List.mem_cons_self img rest, hk, (containsTag_iff _ _).1 hc⟩
      · have hc2 : containsTag img.imageNameNoRegistry s.repoTags = false := by
          cases h : containsTag img.imageNameNoRegistry s.repoTags with
          | false => rfl
          | true => exact absurd h hc
        simp only [imageMatch, hskip2, Bool.false_eq_true, if_false, hc2, ih]
        constructor
        · rintro ⟨i, hi, hki, hmem⟩
          exact ⟨i, List.mem_cons_of_mem _ hi, hki, hmem⟩
        · rintro ⟨i, hi, hki, hmem⟩
          rcases List.mem_cons.1 hi with rfl | hi
          · exact absurd ((containsTag_iff _ _).2 hmem) (by rw [hc2]; simp)
          · exact ⟨i, hi, hki, hmem⟩

lemma mem_findImageIds_iff (pub : Bool) (images : List Image)
    (summaries : List ImageSummary) (x : String) :
    x ∈ findImageIds pub images summaries ↔
      ∃ s ∈ summaries, s.parentID = "" ∧ s.id = x ∧
        imageMatch pub s images = true := by
  induction summaries with
  | nil => simp [findImageIds]
  | cons s rest ih =>
    constructor
    · intro hx
      by_cases hp : s.parentID = ""
      · by_cases hm : imageMatch pub s images = true
        · rw [findImageIds, if_pos hp, if_pos hm] at hx
          rcases List.mem_cons.1 hx with rfl | hx
          · exact ⟨s, List.mem_cons_self s rest, hp, rfl, hm⟩
          · obtain ⟨u, hu, h1, h2, h3⟩ := ih.1 hx
            exact ⟨u, List.mem_cons_of_mem _ hu, h1, h2, h3⟩
        · rw [findImageIds, if_pos hp, if_neg hm] at hx
          obtain ⟨u, hu, h1, h2, h3⟩ := ih.1 hx
          exact ⟨u, List.mem_cons_of_mem _ hu, h1, h2, h3⟩
      · rw [findImageIds, if_neg hp] at hx
        obtain ⟨u, hu, h1, h2, h3⟩ := ih.1 hx
        exact ⟨u, List.mem_cons_of_mem _ hu, h1, h2, h3⟩
    · rintro ⟨u, hu, h1, h2, h3⟩
      rcases List.mem_cons.1 hu with rfl | hu
      · rw [findImageIds, if_pos h1, if_pos h3]
        exact h2 ▸ List.mem_cons_self _ _
      · have hx : x ∈ findImageIds pub images rest := ih.2 ⟨u, hu, h1, h2, h3⟩
        by_cases hp : s.parentID = ""
        · by_cases hm : imageMatch pub s images = true
          · rw [findImageIds, if_pos hp, if_pos hm]
            exact List.mem_cons_of_mem _ hx
          · rw [findImageIds, if_pos hp, if_neg hm]
            exact hx
        · rw [findImageIds, if_neg hp]
          exact hx

lemma findImageIds_sublist (pub : Bool) (images : List Image)
    (summaries : List ImageSummary) :
    List.Sublist (findImageIds pub images summaries) (summaries.map ImageSummary.id) := by
  induction summaries with
  | nil => simp [findImageIds]
  | cons s rest ih =>
    by_cases hp : s.parentID = ""
    · by_cases hm : imageMatch pub s images = true
      · rw [findImageIds, if_pos hp, if_pos hm, List.map_cons]
        exact List.Sublist.cons₂ s.id ih
      · rw [findImageIds, if_pos hp, if_neg hm, List.map_cons]
        exact List.Sublist.cons s.id ih
    · rw [findImageIds, if_neg hp, List.map_cons]
      exact List.Sublist.cons s.id ih

lemma imageMatch_skip (pub : Bool) (s : ImageSummary) (img : Image)
    (hk : keepImage pub img = false) (l₁ l₂ : List Image) :
    imageMatch pub s (l₁ ++ img :: l₂) = imageMatch pub s (l₁ ++ l₂) := by
  have hskip := skip_of_not_keepImage pub img hk
  induction l₁ with
  | nil => simp [imageMatch, hskip]
  | cons a t ih =>
    by_cases ha : (a.public && !pub) = true
    · simp [imageMatch, ha, ih]
    · have ha2 : (a.public && !pub) = false := by
        cases h : (a.public && !pub) with
        | false => rfl
        | true => exact absurd h ha
      by_cases hc : containsTag a.imageNameNoRegistry s.repoTags = true
      · simp [imageMatch, ha2, hc]
      · have hc2 : containsTag a.imageNameNoRegistry s.repoTags = false := by
          cases h : containsTag a.imageNameNoRegistry s.repoTags with
          | false => rfl
          | true => exact absurd h hc
        simp [imageMatch, ha2, hc2, ih]

lemma findImageIds_congr (pub : Bool) (images₁ images₂ : List Image)
    (h : ∀ s, imageMatch pub s images₁ = imageMatch pub s images₂)
    (summaries : List ImageSummary) :
    findImageIds pub images₁ summaries = findImageIds pub images₂ summaries := by
  induction summaries with
  | nil => rfl
  | cons s rest ih => simp [findImageIds, h s, ih]

lemma tagImages_spec (pub : Bool) (tagErr : Image → Option String)
    (images : List Image) :
    tagImages pub tagErr images
      = ((images.filter (keepImage pub)).map
          (fun i => (⟨i, i.imageName, i.imageNameNoRegistry⟩ : TagCall)),
         StageExit.returned) := by
  induction images with
  | nil => rfl
  | cons img rest ih =>
    by_cases hskip : (img.public && !pub) = true
    · have hk := keepImage_of_skip pub img hskip
      simp [tagImages, hskip, hk, List.filter_cons, ih]
    · have hskip2 : (img.public && !pub) = false := by
        cases h : (img.public && !pub) with
        | false => rfl
        | true => exact absurd h hskip
      have hk : keepImage pub img = true := by simp [keepImage, hskip2]
      simp [tagImages, hskip2, hk, List.filter_cons, ih]

lemma pullImages_ok (pub : Bool) (images : List Image) :
    pullImages pub (fun _ => none) images
      = ((images.filter (keepImage pub)).map
          (fun i => (⟨i, i.imageName⟩ : PullCall)),
         StageExit.returned) := by
  induction images with
  | nil => rfl
  | cons img rest ih =>
    by_cases hskip : (img.public && !pub) = true
    · have hk := keepImage_of_skip pub img hskip
      simp [pullImages, hskip, hk, List.filter_cons, ih]
    · have hskip2 : (img.public && !pub) = false := by
        cases h : (img.public && !pub) with
        | false => rfl
        | true => exact absurd h hskip
      have hk : keepImage pub img = true := by simp [keepImage, hskip2]
      simp [pullImages, hskip2, hk, List.filter_cons, ih]

lemma pull_calls_keep (pub : Bool) (pullErr : Image → Option String) :
    ∀ (images : List Image) (c : PullCall),
      c ∈ (pullImages pub pullErr images).1 → keepImage pub c.image = true := by
  intro images
  induction images with
  | nil => intro c hc; simp [pullImages] at hc
  | cons img rest ih =>
    intro c hc
    by_cases hskip : (img.public && !pub) = true
    · rw [pullImages, if_pos hskip] at hc
      exact ih c hc
    · have hskip2 : (img.public && !pub) = false := by
        cases h : (img.public && !pub) with
        | false => rfl
        | true => exact absurd h hskip
      have hk : keepImage pub img = true := by simp [keepImage, hskip2]
      rw [pullImages, if_neg (by simp [hskip2])] at hc
      cases hpe : pullErr img with
      | some e =>
        rw [hpe] at hc
        simp only [List.mem_singleton] at hc
        rw [hc]
        exact hk
      | none =>
        rw [hpe] at hc
        simp only [List.mem_cons] at hc
        rcases hc with rfl | hc
        · exact hk
        · exact ih c hc

lemma isCmd_echoTag (i : Image) : isCmdLine (echoTagLine i) = false := by
  simp [isCmdLine, echoTagLine, strStarts, String.data_append, List.isPrefixOf]

lemma isCmd_dockerTag (i : Image) : isCmdLine (dockerTagLine i) = true := by
  simp [isCmdLine, dockerTagLine, strStarts, String.data_append, List.isPrefixOf]

lemma isCmd_echoPush (i : Image) : isCmdLine (echoPushLine i) = false := by
  simp [isCmdLine, echoPushLine, strStarts, String.data_append, List.isPrefixOf]

lemma isCmd_dockerPush (i : Image) : isCmdLine (dockerPushLine i) = true := by
  simp [isCmdLine, dockerPushLine, strStarts, String.data_append, List.isPrefixOf]

lemma filter_scriptHeader (outFile : String) :
    (scriptHeader outFile).filter isCmdLine = [] := rfl

lemma filter_tagBlock (l : List Image) :
    (l.flatMap fun i => [echoTagLine i, dockerTagLine i]).filter isCmdLine
      = l.map dockerTagLine := by
  induction l with
  | nil => rfl
  | cons i rest ih =>
    rw [List.flatMap_cons, List.filter_append, ih, List.map_cons]
    rw [show List.filter isCmdLine [echoTagLine i, dockerTagLine i]
          = [dockerTagLine i] by
        simp [List.filter, isCmd_echoTag i, isCmd_dockerTag i]]
    rfl

lemma filter_pushBlock (l : List Image) :
    (l.flatMap fun i => [echoPushLine i, dockerPushLine i]).filter isCmdLine
      = l.map dockerPushLine := by
  induction l with
  | nil => rfl
  | cons i rest ih =>
    rw [List.flatMap_cons, List.filter_append, ih, List.map_cons]
    rw [show List.filter isCmdLine [echoPushLine i, dockerPushLine i]
          = [dockerPushLine i] by
        simp [List.filter, isCmd_echoPush i, isCmd_dockerPush i]]
    rfl

lemma applyTagDefaults_tags (l : List Image) :
    (l.map fun img =>
        if img.tag = "" then Image.mk img.registry img.repository "latest" img.public
        else img).map Image.tag
      = l.map fun i => if i.tag = "" then "latest" else i.tag := by
  induction l with
  | nil => rfl
  | cons a t ih =>
    by_cases h : a.tag = ""
    · simp [h, ih]
    · simp [h, ih]

lemma applyTagDefaults_fields (l : List Image) :
    (l.map fun img =>
        if img.tag = "" then Image.mk img.registry img.repository "latest" img.public
        else img).map (fun i => (i.registry, i.repository, i.public))
      = l.map fun i => (i.registry, i.repository, i.public) := by
  induction l with
  | nil => rfl
  | cons a t ih =>
    by_cases h : a.tag = ""
    · simp [h, ih]
    · simp [h, ih]

/-! ## Claims -/

/-- C1: for every manifest image list and every daemon summary list, the
set of image IDs returned by `findImageIds` is exactly the IDs of
summaries with empty parent ID whose repo-tag set contains (by exact
string equality) the local name `repository:tag` of at least one
manifest image that passes the public/private filter, i.e. such that not
(`public = true` and `publicIncluded = false`). -/
theorem resolver_selected_ids_iff (pub : Bool) (images : List Image)
    (summaries : List ImageSummary) (x : String) :
    x ∈ findImageIds pub images summaries ↔
      ∃ s ∈ summaries, s.parentID = "" ∧ s.id = x ∧
        ∃ img ∈ images, ¬(img.public = true ∧ pub = false) ∧
          img.imageNameNoRegistry ∈ s.repoTags := by
  rw [mem_findImageIds_iff]
  constructor
  · rintro ⟨s, hs, h1, h2, h3⟩
    obtain ⟨img, hi, hk, hm⟩ := (imageMatch_iff pub s images).1 h3
    exact ⟨s, hs, h1, h2, img, hi, (keepImage_true_iff pub img).1 hk, hm⟩
  · rintro ⟨s, hs, h1, h2, img, hi, hk, hm⟩
    exact ⟨s, hs, h1, h2,
      (imageMatch_iff pub s images).2 ⟨img, hi, (keepImage_true_iff pub img).2 hk, hm⟩⟩

/-- C2: an image with `public = true` is never referenced by the pull
stage, the tag stage, or the save-stage resolver when the
public-inclusion flag is false, and is processed by each of them when
the flag is true. -/
theorem public_filter_respected (img : Image) (h : img.public = true) :
    C2Prop img := by
  refine ⟨?_, ?_, ?_, ?_, ?_, ?_⟩
  · intro pullErr images c hc heq
    have hk := pull_calls_keep false pullErr images c hc
    rw [heq] at hk
    simp [keepImage, h] at hk
  · intro tagErr images c hc heq
    rw [tagImages_spec] at hc
    obtain ⟨i, hi, rfl⟩ := List.mem_map.1 hc
    have hk : keepImage false i = true := (List.mem_filter.1 hi).2
    rw [show (⟨i, i.imageName, i.imageNameNoRegistry⟩ : TagCall).image = i from rfl] at heq
    rw [heq] at hk
    simp [keepImage, h] at hk
  · intro l₁ l₂ summaries
    exact findImageIds_congr false _ _
      (fun s => imageMatch_skip false s img (by simp [keepImage, h]) l₁ l₂) summaries
  · intro images hmem
    rw [pullImages_ok]
    exact List.mem_map.2 ⟨img, List.mem_filter.2 ⟨hmem, keepImage_true_of_pub img⟩, rfl⟩
  · intro tagErr images hmem
    rw [tagImages_spec]
    exact List.mem_map.2 ⟨img, List.mem_filter.2 ⟨hmem, keepImage_true_of_pub img⟩, rfl⟩
  · intro images summaries s hmem hs hp htag
    exact (mem_findImageIds_iff true images summaries s.id).2
      ⟨s, hs, hp, rfl,
       (imageMatch_iff true s images).2 ⟨img, hmem, keepImage_true_of_pub img, htag⟩⟩

/-- Witness for C2 at the concrete public image `java:8`. -/
theorem public_filter_respected_witness :
    (⟨"", "java", "8", true⟩ : Image).public = true ∧ C2Prop ⟨"", "java", "8", true⟩ :=
  ⟨rfl, public_filter_respected ⟨"", "java", "8", true⟩ rfl⟩

/-- C3 (code bug): on the success path of `saveImages` — every external
call succeeds — the stage returns control with the export-stream reader
closed by its deferred `Close`, but with the output file handle still
open: `gzip.Writer.Close` does not close the underlying file and
`outFile.Close` is never called.  Moreover on the path where
`os.Create` fails, `log.Fatalf` exits before any `defer` is registered,
so the already-open export reader is not closed either. -/
theorem saveImages_success_path_leaves_file_open :
    (saveImages false [⟨"", "java", "8", false⟩]
        ⟨some [⟨"sha256:abc", "", ["java:8"]⟩], true, true, true, none⟩).exit
      = StageExit.returned ∧
    (saveImages false [⟨"", "java", "8", false⟩]
        ⟨some [⟨"sha256:abc", "", ["java:8"]⟩], true, true, true, none⟩).readerClosed
      = true ∧
    (saveImages false [⟨"", "java", "8", false⟩]
        ⟨some [⟨"sha256:abc", "", ["java:8"]⟩], true, true, true, none⟩).fileOpened
      = true ∧
    (saveImages false [⟨"", "java", "8", false⟩]
        ⟨some [⟨"sha256:abc", "", ["java:8"]⟩], true, true, true, none⟩).fileClosed
      = false ∧
    (saveImages false [⟨"", "java", "8", false⟩]
        ⟨some [⟨"sha256:abc", "", ["java:8"]⟩], true, false, true, none⟩).readerOpened
      = true ∧
    (saveImages false [⟨"", "java", "8", false⟩]
        ⟨some [⟨"sha256:abc", "", ["java:8"]⟩], true, false, true, none⟩).readerClosed
      = false := by
  decide

/-- C4 (code bug): the error returned by `io.Copy` is assigned to `err`
on the last line of `saveImages` and never checked, so a byte-copy
failure does not abort the run: the stage returns normally and the
outcome is identical to that of an error-free copy. -/
theorem saveImages_copy_error_not_fatal :
    (saveImages false [⟨"", "java", "8", false⟩]
        ⟨some [⟨"sha256:abc", "", ["java:8"]⟩], true, true, true, some "unexpected EOF"⟩).exit
      = StageExit.returned ∧
    saveImages false [⟨"", "java", "8", false⟩]
        ⟨some [⟨"sha256:abc", "", ["java:8"]⟩], true, true, true, some "unexpected EOF"⟩
      = saveImages false [⟨"", "java", "8", false⟩]
        ⟨some [⟨"sha256:abc", "", ["java:8"]⟩], true, true, true, none⟩ := by
  decide

/-- C5: the command lines of the generated load script are exactly one
`docker tag` line per manifest image followed by one `docker push` line
per manifest image, both in manifest order, with no public filtering
applied: all tag commands precede all push commands. -/
theorem script_tag_push_per_manifest_image (outFile : String) (d : Descriptor) :
    (renderScript outFile d).filter isCmdLine
      = d.images.map dockerTagLine ++ d.images.map dockerPushLine := by
  rw [renderScript, List.filter_append, List.filter_append,
      filter_scriptHeader, filter_tagBlock, filter_pushBlock, List.nil_append]

/-- C6: each daemon summary contributes at most one ID, in daemon order
(the resolver output is a sublist of the summary IDs), hence whenever
the daemon summaries carry pairwise-distinct IDs the resolver output has
no duplicate ID — even when several manifest images share a local name. -/
theorem resolver_output_nodup (pub : Bool) (images : List Image)
    (summaries : List ImageSummary) :
    List.Sublist (findImageIds pub images summaries) (summaries.map ImageSummary.id) ∧
    ((summaries.map ImageSummary.id).Nodup → (findImageIds pub images summaries).Nodup) :=
  ⟨findImageIds_sublist pub images summaries,
   fun h => List.Nodup.sublist (findImageIds_sublist pub images summaries) h⟩

/-- Witness for C6: two manifest images sharing the local name `java:8`
and two distinct root summaries both tagged `java:8`; the output is
duplicate-free. -/
theorem resolver_output_nodup_witness :
    (([⟨"sha256:aaa", "", ["java:8"]⟩, ⟨"sha256:bbb", "", ["java:8"]⟩] :
        List ImageSummary).map ImageSummary.id).Nodup ∧
    (findImageIds false [⟨"gcr.io", "java", "8", false⟩, ⟨"", "java", "8", false⟩]
        [⟨"sha256:aaa", "", ["java:8"]⟩, ⟨"sha256:bbb", "", ["java:8"]⟩]).Nodup :=
  ⟨by decide,
   (resolver_output_nodup false [⟨"gcr.io", "java", "8", false⟩, ⟨"", "java", "8", false⟩]
      [⟨"sha256:aaa", "", ["java:8"]⟩, ⟨"sha256:bbb", "", ["java:8"]⟩]).2 (by decide)⟩

/-- C7: the loader defaults every absent (empty) tag to `"latest"` at
load time, leaves non-empty tags as declared, and leaves all other
fields of every record untouched; the loaded descriptor is exactly the
tag-defaulted raw descriptor. -/
theorem loaded_tags_defaulted (raw : Descriptor) (unmarshalErr : Option String) :
    loadStage true (TomlResult.parsed unmarshalErr raw)
      = Except.ok (applyTagDefaults raw) ∧
    (applyTagDefaults raw).images.map Image.tag
      = raw.images.map (fun i => if i.tag = "" then "latest" else i.tag) ∧
    (applyTagDefaults raw).images.map (fun i => (i.registry, i.repository, i.public))
      = raw.images.map (fun i => (i.registry, i.repository, i.public)) :=
  ⟨rfl, applyTagDefaults_tags raw.images, applyTagDefaults_fields raw.images⟩

/-- C8 (code bug): a manifest whose content the TOML library cannot
unmarshal into image records does not abort the run — the unmarshal
error is discarded and the loader returns a (possibly empty) descriptor.
By contrast a `toml.LoadFile` syntax error and a missing input file are
fatal. -/
theorem loader_ignores_unmarshal_error :
    loadStage true (TomlResult.parsed (some "cannot convert value to image list") ⟨[]⟩)
      = Except.ok ⟨[]⟩ ∧
    loadStage true (TomlResult.syntaxError "unexpected token")
      = Except.error ("Error Loading File: " ++ "unexpected token") ∧
    loadStage false (TomlResult.parsed none ⟨[]⟩)
      = Except.error "Input file not found" :=
  ⟨rfl, rfl, rfl⟩

/-- C9: the tag stage never surfaces a tag error: its result (calls made,
exit mode) is identical under any two tag-error oracles, it always
returns normally, and it issues exactly one tag call per filtered image
regardless of errors. -/
theorem tag_errors_never_surfaced (pub : Bool)
    (tagErr₁ tagErr₂ : Image → Option String) (images : List Image) :
    tagImages pub tagErr₁ images = tagImages pub tagErr₂ images ∧
    (tagImages pub tagErr₁ images).2 = StageExit.returned ∧
    (tagImages pub tagErr₁ images).1
      = (images.filter (keepImage pub)).map
          (fun i => ⟨i, i.imageName, i.imageNameNoRegistry⟩) := by
  refine ⟨?_, ?_, ?_⟩
  · rw [tagImages_spec, tagImages_spec]
  · rw [tagImages_spec]
  · rw [tagImages_spec]

/-- C10: the three stages agree on one local name: every tag call's
destination is the image's `imageNameNoRegistry`; the resolver selects a
root summary for an image exactly when `imageNameNoRegistry` is among
its repo tags; and the script's tag command, whose source name is
spelled inline in the template, uses the very same string. -/
theorem local_name_agreement (img : Image) :
    (∀ (pub : Bool) (tagErr : Image → Option String) (images : List Image) (c : TagCall),
        c ∈ (tagImages pub tagErr images).1 → c.dest = c.image.imageNameNoRegistry) ∧
    (∀ (pub : Bool) (s : ImageSummary), keepImage pub img = true → s.parentID = "" →
        (s.id ∈ findImageIds pub [img] [s] ↔ img.imageNameNoRegistry ∈ s.repoTags)) ∧
    dockerTagLine img
      = "docker tag " ++ img.imageNameNoRegistry ++ " ${repository}/"
          ++ img.imageNameNoRegistry := by
  refine ⟨?_, ?_, ?_⟩
  · intro pub tagErr images c hc
    rw [tagImages_spec] at hc
    obtain ⟨i, _, rfl⟩ := List.mem_map.1 hc
    rfl
  · intro pub s hk hp
    constructor
    · intro hx
      obtain ⟨u, hu, _, _, h3⟩ := (mem_findImageIds_iff pub [img] [s] s.id).1 hx
      obtain rfl := List.mem_singleton.1 hu
      obtain ⟨i, hi, _, hm⟩ := (imageMatch_iff pub u [img]).1 h3
      obtain rfl := List.mem_singleton.1 hi
      exact hm
    · intro htag
      exact (mem_findImageIds_iff pub [img] [s] s.id).2
        ⟨s, List.mem_singleton.2 rfl, hp, rfl,
         (imageMatch_iff pub s [img]).2 ⟨img, List.mem_singleton.2 rfl, hk, htag⟩⟩
  · apply String.ext
    simp [dockerTagLine, Image.imageNameNoRegistry, String.data_append]

/-- Witness for C10 at the concrete image `gcr.io/x/pause:1.0` and a
root summary tagged `x/pause:1.0`. -/
theorem local_name_agreement_witness :
    ((⟨⟨"gcr.io", "x/pause", "1.0", false⟩, "gcr.io/x/pause:1.0", "x/pause:1.0"⟩ : TagCall)
      ∈ (tagImages false (fun _ => none) [⟨"gcr.io", "x/pause", "1.0", false⟩]).1 ∧
     (⟨⟨"gcr.io", "x/pause", "1.0", false⟩, "gcr.io/x/pause:1.0", "x/pause:1.0"⟩ : TagCall).dest
       = (⟨⟨"gcr.io", "x/pause", "1.0", false⟩, "gcr.io/x/pause:1.0", "x/pause:1.0"⟩ :
           TagCall).image.imageNameNoRegistry) ∧
    (keepImage false ⟨"gcr.io", "x/pause", "1.0", false⟩ = true ∧
     (⟨"sha256:abc", "", ["x/pause:1.0"]⟩ : ImageSummary).parentID = "" ∧
     ((⟨"sha256:abc", "", ["x/pause:1.0"]⟩ : ImageSummary).id
         ∈ findImageIds false [⟨"gcr.io", "x/pause", "1.0", false⟩]
             [⟨"sha256:abc", "", ["x/pause:1.0"]⟩]
       ↔ (⟨"gcr.io", "x/pause", "1.0", false⟩ : Image).imageNameNoRegistry
           ∈ (⟨"sha256:abc", "", ["x/pause:1.0"]⟩ : ImageSummary).repoTags)) :=
  ⟨⟨by decide,
    (local_name_agreement ⟨"gcr.io", "x/pause", "1.0", false⟩).1 false (fun _ => none)
      [⟨"gcr.io", "x/pause", "1.0", false⟩]
      ⟨⟨"gcr.io", "x/pause", "1.0", false⟩, "gcr.io/x/pause:1.0", "x/pause:1.0"⟩ (by decide)⟩,
   ⟨by decide, rfl,
    (local_name_agreement ⟨"gcr.io", "x/pause", "1.0", false⟩).2.1 false
      ⟨"sha256:abc", "", ["x/pause:1.0"]⟩ (by decide) rfl⟩⟩

end Satchel
